import Mathlib

/-!
Verification development for the datannurpy catalog engine.

Shallow embedding of the ID-assignment, modality-deduplication and
catalog-accumulation core (src/datannurpy/catalog.py, _ids.py,
readers/csv.py, readers/database.py, readers/_utils.py), together with
theorems settling the specification claims about it.

Strings are modelled as Lean `String` (a list of Unicode scalar values,
matching Python's sequence-of-code-points strings).  Python's mutable
`Catalog` object is modelled by explicit state passing; `warnings.warn`
is modelled as an output list of warning messages; filesystem and
database collaborators (duckdb/ibis/polars) are modelled by passing
their results (parsed tables, directory listings) as inputs.
-/

namespace Datannur

/- ============================================================
   Identifier Builder  (src/datannurpy/_ids.py)
   ============================================================ -/

/-- Separator for path components (folder---dataset---variable). -/
def ID_SEPARATOR : String := "---"

/-- Membership in the regex character class `[^a-zA-Z0-9_,\- ]` of
_ids.py: a character is allowed when it is an ASCII letter, an ASCII
digit, underscore, comma, hyphen or space. -/
def isAllowedIdChar (c : Char) : Bool :=
  ('a' ≤ c && c ≤ 'z') || ('A' ≤ c && c ≤ 'Z') || ('0' ≤ c && c ≤ '9')
    || c = '_' || c = ',' || c = '-' || c = ' '

/-- Embeds `sanitize_id` of _ids.py: `re.sub` with a single-character
class replaces each disallowed character by an underscore. -/
def sanitize_id (value : String) : String :=
  ⟨value.data.map (fun c => if isAllowedIdChar c then c else '_')⟩

/-- Embeds `make_id` of _ids.py: join the parts with ID_SEPARATOR
(Python `str.join` semantics). -/
def make_id : List String → String
  | [] => ""
  | [p] => p
  | p :: ps => p ++ ID_SEPARATOR ++ make_id ps

/- ============================================================
   Entities  (datannurpy.entities; fields as used by catalog.py
   and described in the spec data model)
   ============================================================ -/

/-- Folder entity. `parent_id` defaults to none, as for Python
`Folder(id=..., name=...)` built without a parent. -/
structure Folder where
  id : String
  name : String
  parent_id : Option String := none
  ftype : Option String := none
  data_path : Option String := none
  last_update_date : Option String := none
deriving DecidableEq, Repr

/-- Dataset entity (the fields the modelled code paths touch). -/
structure Dataset where
  id : String
  name : String
  folder_id : Option String := none
  data_path : Option String := none
  delivery_format : Option String := none
  nb_row : Option Nat := none
  description : Option String := none
deriving DecidableEq, Repr

/-- Variable entity.  `id` is the provisional raw column name until
`_finalize_variables` rewrites it. -/
structure Variable where
  id : String
  name : Option String := none
  dataset_id : Option String := none
  vtype : Option String := none
  nb_distinct : Option Nat := none
  nb_duplicate : Option Nat := none
  nb_missing : Option Nat := none
  modality_ids : List String := []
deriving DecidableEq, Repr

/-- Modality entity. -/
structure Modality where
  id : String
  folder_id : String
  name : String
deriving DecidableEq, Repr

/-- Value entity: one (modality_id, value) pair. -/
structure Value where
  modality_id : String
  value : String
  description : Option String := none
deriving DecidableEq, Repr

/-- One row of a frequency table: (variable_id, value, freq).  The
`value` is optional because the scanners keep null rows. -/
structure FreqRow where
  variable_id : String
  value : Option String
  freq : Nat
deriving DecidableEq, Repr

/-- A frequency table is its list of rows. -/
abbrev FreqTable := List FreqRow

/- ============================================================
   Modality signature and hash
   ============================================================ -/

/-- Lexicographic code-point comparison of character lists, the order
Python uses on strings. -/
def listLeb : List Char → List Char → Bool
  | [], _ => true
  | _ :: _, [] => false
  | a :: as, b :: bs => if a = b then listLeb as bs else decide (a < b)

/-- Lexicographic code-point comparison of strings. -/
def strLeb (a b : String) : Bool := listLeb a.data b.data

/-- The string order as a relation, for sorting. -/
def strLe (a b : String) : Prop := strLeb a b = true

instance : DecidableRel strLe := fun a b => by
  unfold strLe
  infer_instance

/-- Lower-case a string character by character (Python `str.lower`
restricted to the ASCII range, like `Char.toLower`). -/
def toLowerStr (s : String) : String := ⟨s.data.map Char.toLower⟩

/-- Canonical form of a Python `frozenset[str]`: the distinct members,
sorted.  Two value collections are set-equal exactly when their
canonical signatures are equal, so an association list keyed by
`canonSig` models the dict keyed by the frozen value-set. -/
def canonSig (values : List String) : List String :=
  List.insertionSort strLe values.dedup

/-- Fixed id of the sentinel folder owning all modalities. -/
def MODALITIES_FOLDER_ID : String := "_modalities"

/-- Modelled from the spec: the self-describing encoding hashed by
`compute_modality_hash` (the helper is imported by catalog.py but its
module is not under src/).  Each element of the sorted value list is
length-prefixed, so distinct lists always yield distinct encodings
(spec 4.2: hash a self-describing encoding, e.g. length-prefixing each
element, not the plain joined string). -/
def encodeVals (l : List String) : List Nat :=
  l.flatMap (fun s => s.length :: s.data.map Char.toNat)

/-- Base-62 digit characters used to render the digest. -/
def base62Chars : List Char :=
  "0123456789abcdefghijklmnopqrstuvwxyzABCDEFGHIJKLMNOPQRSTUVWXYZ".data

/-- Render a natural number as exactly ten base-62 characters
(most-significant digit first, left-padded with zeros). -/
def toBase62Fixed10 (n : Nat) : String :=
  ⟨(List.range 10).map (fun i => base62Chars.getD (n / 62 ^ (9 - i) % 62) '0')⟩

/-- Modelled from the spec: `compute_modality_hash` (absent from src/)
computes a stable 10-character hash of the signature; here a rolling
digest of the length-prefixed sorted encoding, reduced modulo 62^10 and
rendered in base 62. -/
def compute_modality_hash (values : List String) : String :=
  toBase62Fixed10
    ((encodeVals (canonSig values)).foldl
      (fun acc n => (acc * 1114112 + n) % 62 ^ 10) 5381)

/-- Truncation rule of the modality name builder: values longer than 15
characters are cut to 12 characters plus an ellipsis. -/
def truncVal (s : String) : String :=
  if 15 < s.length then ⟨s.data.take 12⟩ ++ "..." else s

/-- Modelled from the spec: `build_modality_name` (absent from src/)
sorts the distinct values case-insensitively, shows at most three of
them (truncated by `truncVal`) joined by a comma and space, and appends
a count of the remaining values when more than three exist. -/
def build_modality_name (values : List String) : String :=
  let sortedVals :=
    List.insertionSort (fun a b => strLe (toLowerStr a) (toLowerStr b))
      values.dedup
  let shown := String.intercalate ", " ((sortedVals.take 3).map truncVal)
  if sortedVals.length ≤ 3 then shown
  else shown ++ "... (+" ++ toString (sortedVals.length - 3) ++ ")"

/- ============================================================
   Catalog Accumulator  (src/datannurpy/catalog.py)
   ============================================================ -/

/-- Catalog state: the five entity collections, the accumulated
frequency rows, and the modality signature index (a Python dict keyed
by frozenset, modelled as an association list keyed by `canonSig`).
The `variables` collection is called `vars` because `variables` is a
reserved word in Lean. -/
structure Catalog where
  folders : List Folder := []
  datasets : List Dataset := []
  vars : List Variable := []
  modalities : List Modality := []
  values : List Value := []
  freq_tables : List FreqTable := []
  modality_index : List (List String × String) := []
  freq_threshold : Nat := 100
deriving DecidableEq, Repr

/-- Embeds `Catalog._ensure_modalities_folder`: create the sentinel
folder once, checked by id. -/
def ensure_modalities_folder (c : Catalog) : Catalog :=
  if c.folders.any (fun f => f.id = MODALITIES_FOLDER_ID) then c
  else { c with folders := c.folders ++ [{ id := MODALITIES_FOLDER_ID, name := "Modalities" }] }

/-- Embeds `Catalog._get_or_create_modality`.  The Python parameter is
a `set[str]`; the model takes the value list and forms the frozenset
via `canonSig` (so `sorted(values)` is `canonSig values`). -/
def get_or_create_modality (c : Catalog) (values : List String) :
    String × Catalog :=
  let signature := canonSig values
  match c.modality_index.find? (fun p => p.1 = signature) with
  | some p => (p.2, c)
  | none =>
    let c := ensure_modalities_folder c
    let hash10 := compute_modality_hash values
    let modality_id := make_id [ MODALITIES_FOLDER_ID, "mod_" ++ hash10]
    let c :=
      { c with
        modalities := c.modalities ++
          [{ id := modality_id, folder_id := MODALITIES_FOLDER_ID,
             name := build_modality_name values }],
        values := c.values ++
          signature.map (fun v => { modality_id := modality_id, value := v }),
        modality_index := c.modality_index ++ [(signature, modality_id)] }
    (modality_id, c)

/-- Python truthiness of `a or b` for an optional string `a`: the
right operand is used when `a` is None or empty. -/
def pyOr : Option String → String → String
  | some s, old => if s = "" then old else s
  | none, old => old

/-- Python dict insertion with overwrite semantics, for
`var_id_mapping[old] = new`. -/
def dictInsert (m : List (String × String)) (k v : String) :
    List (String × String) :=
  if m.any (fun p => p.1 = k) then m.map (fun p => if p.1 = k then (k, v) else p)
  else m ++ [(k, v)]

/-- Final id of one variable, as built in the first loop of
`_finalize_variables`: `make_id(dataset.id, sanitize_id(var.name or
old_col_name))` where the provisional `var.id` is the raw column name. -/
def finalVarId (dataset_id : String) (v : Variable) : String :=
  make_id [dataset_id, sanitize_id (pyOr v.name v.id)]

/-- One step of the first loop of `_finalize_variables`. -/
def finalizeVarStep (dataset_id : String)
    (acc : List Variable × List (String × String)) (v : Variable) :
    List Variable × List (String × String) :=
  (acc.1 ++ [{ v with dataset_id := some dataset_id,
                      id := finalVarId dataset_id v }],
   dictInsert acc.2 v.id (finalVarId dataset_id v))

/-- First loop of `_finalize_variables`: rewrite each variable's id and
dataset_id and record the provisional-to-final mapping. -/
def finalizeVarIds (dataset_id : String) (vs : List Variable) :
    List Variable × List (String × String) :=
  vs.foldl (finalizeVarStep dataset_id) ([], [])

/-- Python `set.add` on a set modelled as a duplicate-free list. -/
def setAdd (l : List String) (x : String) : List String :=
  if x ∈ l then l else l ++ [x]

/-- Replace the entry for a key in an association list, or append it. -/
def upsertVals (m : List (String × List String)) (k : String)
    (v : List String) : List (String × List String) :=
  if m.any (fun p => p.1 = k) then m.map (fun p => if p.1 = k then (k, v) else p)
  else m ++ [(k, v)]

/-- Second block of `_finalize_variables`: group the frequency table's
distinct non-null values by provisional variable id (an entry is
created even when the only value seen is null, mirroring the
`setdefault`-style guard in the source). -/
def freqByVar (rows : FreqTable) : List (String × List String) :=
  rows.foldl
    (fun acc row =>
      let cur := (((acc.find? (fun p => p.1 = row.variable_id)).map
        Prod.snd).getD [])
      let cur := match row.value with
        | some v => setAdd cur v
        | none => cur
      upsertVals acc row.variable_id cur)
    []

/-- Third block of `_finalize_variables`: for each finalized variable,
recover its provisional name through the mapping (the source's reverse
lookup `next(k for k, v in ... if v == var.id)`) and, when the
frequency table saw a non-empty value set for it, attach the modality
returned by the deduplicator. -/
def assignStep (mapping : List (String × String))
    (fbv : List (String × List String)) (acc : Catalog × List Variable)
    (v : Variable) : Catalog × List Variable :=
  match (mapping.find? (fun p => p.2 = v.id)).map Prod.fst with
  | none => (acc.1, acc.2 ++ [v])
  | some old =>
    match (fbv.find? (fun p => p.1 = old)).map Prod.snd with
    | some vals =>
      if vals.isEmpty then (acc.1, acc.2 ++ [v])
      else
        let r := get_or_create_modality acc.1 vals
        (r.2, acc.2 ++ [{ v with modality_ids := [r.1] }])
    | none => (acc.1, acc.2 ++ [v])

/-- The third block of `_finalize_variables` as a fold of `assignStep`
over the finalized variables, threading the catalog. -/
def assign_modalities (c : Catalog) (vs : List Variable)
    (mapping : List (String × String)) (fbv : List (String × List String)) :
    Catalog × List Variable :=
  vs.foldl (assignStep mapping fbv) (c, [])

/-- Fourth block of `_finalize_variables`: rewrite the frequency rows'
variable references from provisional to final ids (the `ibis.cases`
expression falls back to the unchanged id when no mapping entry
matches). -/
def rewriteFreq (mapping : List (String × String)) (rows : FreqTable) :
    FreqTable :=
  rows.map (fun r =>
    { r with variable_id :=
        (((mapping.find? (fun p => p.1 = r.variable_id)).map Prod.snd).getD
          r.variable_id) })

/-- Embeds `Catalog._finalize_variables`. -/
def finalize_variables (c : Catalog) (vs : List Variable) (dataset : Dataset)
    (freq_table : Option FreqTable) : Catalog :=
  let fin := finalizeVarIds dataset.id vs
  let fbv := match freq_table with
    | some rows => freqByVar rows
    | none => []
  let r := assign_modalities c fin.1 fin.2 fbv
  let c := r.1
  let c := match freq_table with
    | some rows =>
      { c with freq_tables := c.freq_tables ++ [rewriteFreq fin.2 rows] }
    | none => c
  { c with vars := c.vars ++ r.2 }

/- ============================================================
   Scanners  (src/datannurpy/readers/_utils.py, csv.py, database.py)
   The columnar query engine (duckdb/ibis/polars) is a collaborator:
   a successfully parsed source is modelled as a column-major frame of
   optional string cells.
   ============================================================ -/

/-- One column of a parsed table: name, normalized type tag, cells. -/
structure DFCol where
  name : String
  dtype : String
  cells : List (Option String)
deriving DecidableEq, Repr

/-- A parsed table; `height` is the engine's row count. -/
structure DataFrame where
  height : Nat
  cols : List DFCol
deriving DecidableEq, Repr

/-- Number of distinct cell values of a column (a null cell counts as
one distinct value, as with the engine's n_unique). -/
def nUnique (cells : List (Option String)) : Nat := cells.dedup.length

/-- Number of null cells of a column. -/
def nullCount (cells : List (Option String)) : Nat := cells.count none

/-- Distinct values of a column with their occurrence counts, sorted by
descending count (the engine's value_counts with sort=True). -/
def valueCounts (cells : List (Option String)) :
    List (Option String × Nat) :=
  List.insertionSort (fun a b => b.2 ≤ a.2)
    (cells.dedup.map (fun v => (v, cells.count v)))

/-- Embeds `build_variables` of readers/_utils.py: per-column distinct,
duplicate and missing counts when stats inference is on, a frequency
table restricted to columns whose distinct count is within the
threshold, and one provisional Variable per column (id = name = the raw
column name). -/
def build_variables (df : DataFrame) (dataset_id : Option String)
    (infer_stats : Bool) (freq_threshold : Option Nat) :
    List Variable × Option FreqTable :=
  let nb_rows := df.height
  let statsNonempty := infer_stats && !df.cols.isEmpty
  let freq : Option FreqTable :=
    match freq_threshold with
    | none => none
    | some thr =>
      if !statsNonempty then none
      else
        let eligible := df.cols.filter (fun col => nUnique col.cells ≤ thr)
        if eligible.isEmpty then none
        else some (eligible.foldr (fun col acc =>
          ((valueCounts col.cells).map (fun vc =>
            { variable_id := col.name, value := vc.1, freq := vc.2 })) ++ acc) [])
  let vs := df.cols.map (fun col =>
    { id := col.name, name := some col.name, dataset_id := dataset_id,
      vtype := some col.dtype,
      nb_distinct := if infer_stats then some (nUnique col.cells) else none,
      nb_duplicate :=
        if infer_stats then some (nb_rows - nUnique col.cells) else none,
      nb_missing := if infer_stats then some (nullCount col.cells) else none })
  (vs, freq)

/-- Result of one file scan: provisional variables, the exact row
count, the optional frequency table, and the warnings emitted. -/
structure ScanResult where
  vars : List Variable
  nb_row : Nat
  freq_table : Option FreqTable
  warns : List String
deriving Repr

/-- A CSV file at the scanner boundary: its byte size and what the
engine's read_csv returns for each attempted encoding (none models a
raised InvalidInputException). -/
structure CsvFile where
  size : Nat
  parse : Option String → Option DataFrame

/-- Fallback encodings tried by the CSV reader. -/
def DEFAULT_ENCODINGS : List String := ["utf-8", "CP1252", "ISO_8859_1"]

/-- Embeds `_build_encoding_order` of readers/csv.py. -/
def build_encoding_order : Option String → List (Option String)
  | none => [none, some "CP1252", some "ISO_8859_1"]
  | some e =>
    some e ::
      (DEFAULT_ENCODINGS.filter (fun x => x.toUpper ≠ e.toUpper)).map some

/-- First successful parse over the attempted encodings (the source's
for-loop with continue on InvalidInputException). -/
def tryEncodings (f : CsvFile) : List (Option String) → Option DataFrame
  | [] => none
  | e :: es =>
    match f.parse e with
    | some t => some t
    | none => tryEncodings f es

/-- Embeds `scan_csv` of readers/csv.py: a zero-byte file yields the
empty result with no warning; when every encoding fails, the empty
result is returned together with a warning; otherwise the parsed table
is handed to `build_variables`. -/
def scan_csv (f : CsvFile) (dataset_id : Option String) (infer_stats : Bool)
    (freq_threshold : Option Nat) (csv_encoding : Option String) :
    ScanResult :=
  if f.size = 0 then ⟨[], 0, none, []⟩
  else
    match tryEncodings f (build_encoding_order csv_encoding) with
    | none => ⟨[], 0, none, ["Could not parse CSV file"]⟩
    | some table =>
      let r := build_variables table dataset_id infer_stats freq_threshold
      ⟨r.1, table.height, r.2, []⟩

/-- The engine's `table.limit(n)`: at most the first n rows. -/
def dfLimit (df : DataFrame) (n : Nat) : DataFrame :=
  { height := min df.height n,
    cols := df.cols.map (fun col => { col with cells := col.cells.take n }) }

/-- Embeds `scan_table` of readers/database.py: the returned row count
is always the exact full count; when a sample size is configured and
the table is larger, only the statistics computation runs against the
truncated table. -/
def scan_table (table : DataFrame) (dataset_id : Option String)
    (infer_stats : Bool) (freq_threshold : Option Nat)
    (sample_size : Option Nat) :
    List Variable × Nat × Option FreqTable :=
  let row_count := table.height
  let stats_table :=
    match sample_size with
    | some n => if n < row_count then dfLimit table n else table
    | none => table
  let r := build_variables stats_table dataset_id infer_stats freq_threshold
  (r.1, row_count, r.2)

/- ============================================================
   Folder Walker  (Catalog.add_folder, catalog.py lines 214-359)
   Filesystem discovery (find_files / find_subdirs /
   discover_parquet_datasets) is a collaborator: the walker model
   receives the post-discovery relative paths directly.  Paths are
   modelled as their list of components relative to the scanned root.
   ============================================================ -/

/-- Supported file formats of readers/_utils.py: suffix to
delivery_format. -/
def SUPPORTED_FORMATS : List (String × String) :=
  [(".csv", "csv"), (".xlsx", "excel"), (".xls", "excel")]

/-- Look up a suffix in SUPPORTED_FORMATS (dict `.get`). -/
def lookupFormat (sfx : String) : Option String :=
  (SUPPORTED_FORMATS.find? (fun p => p.1 = sfx)).map Prod.snd

/-- Join path components with the posix separator, the string on which
Python compares and sorts Path values. -/
def joinSlash : List String → String
  | [] => ""
  | [p] => p
  | p :: ps => p ++ "/" ++ joinSlash ps

/-- The stem of a file name (pathlib: the name without its last
suffix; a lone leading dot does not start a suffix). -/
def stemOf (s : String) : String :=
  match s.data.reverse.dropWhile (· ≠ '.') with
  | [] => s
  | [_] => s
  | _ :: rest => ⟨rest.reverse⟩

/-- The suffix of a file name, dot included (pathlib `.suffix`). -/
def suffixOf (s : String) : String :=
  match s.data.reverse.dropWhile (· ≠ '.') with
  | [] => ""
  | [_] => ""
  | _ => "." ++ ⟨(s.data.reverse.takeWhile (· ≠ '.')).reverse⟩

/-- Embeds the sub-folder creation loop of `add_folder` (lines
261-284): iterate the sub-directories in sorted path order, build each
folder id from the root prefix and the sanitized relative components,
and resolve the parent id from the already-created sub-folders,
defaulting to the root prefix.  Returns the created folders and the
subdir_ids map. -/
def subfolderStep (pfx : String)
    (acc : List Folder × List (List String × String)) (subdir : List String) :
    List Folder × List (List String × String) :=
  let folder_id := make_id (pfx :: subdir.map sanitize_id)
  let parent_parts := subdir.dropLast
  let parent_id :=
    if parent_parts = [] then pfx
    else (((acc.2.find? (fun p => p.1 = parent_parts)).map Prod.snd).getD pfx)
  (acc.1 ++
    [{ id := folder_id, name := subdir.getLastD "",
       parent_id := some parent_id, ftype := some "filesystem" }],
   acc.2 ++ [(subdir, folder_id)])

/-- The sub-folder creation loop as a fold of `subfolderStep` over the
sorted sub-directories. -/
def create_subfolders (pfx : String) (subdirs : List (List String)) :
    List Folder × List (List String × String) :=
  (List.insertionSort (fun a b => strLe (joinSlash a) (joinSlash b)) subdirs).foldl
    (subfolderStep pfx) ([], [])

/-- Embeds `Catalog._get_folder_id`: the id of the sub-folder holding
the path's parent directory, or the root prefix for a direct child or
an unknown parent. -/
def get_folder_id (parts : List String) (pfx : String)
    (subdir_ids : List (List String × String)) : String :=
  let parent := parts.dropLast
  if parent = [] then pfx
  else (((subdir_ids.find? (fun p => p.1 = parent)).map Prod.snd).getD pfx)

/-- One discovered CSV file: its path components relative to the root
and its content at the scanner boundary. -/
structure CsvJob where
  parts : List String
  file : CsvFile

/-- Embeds the per-file block of the `add_folder` files loop together
with `_process_file` for the CSV format (the Excel and Parquet branches
dispatch to their own scanners in the same shape and are outside the
modelled claims): build the dataset id and name from the relative path,
resolve the containing folder, scan, record the exact row count on the
dataset and finalize the variables.  In the source the dataset object
is appended before the scan and then mutated in place; the model
appends the dataset with its row count already set, which yields the
same final state. -/
def process_csv_job (c : Catalog) (pfx : String)
    (subdir_ids : List (List String × String)) (job : CsvJob)
    (infer_stats : Bool) (freq_threshold : Option Nat) :
    Catalog × List String :=
  match lookupFormat (toLowerStr (suffixOf (job.parts.getLastD ""))) with
  | none => (c, [])
  | some fmt =>
    if fmt = "parquet" then (c, [])
    else
      let dataset_id := make_id (pfx :: job.parts.map sanitize_id)
      let folder_id := get_folder_id job.parts pfx subdir_ids
      let scan := scan_csv job.file none infer_stats freq_threshold none
      let ds : Dataset :=
        { id := dataset_id, name := stemOf (job.parts.getLastD ""),
          folder_id := some folder_id, delivery_format := some fmt,
          nb_row := some scan.nb_row }
      let c := { c with datasets := c.datasets ++ [ds] }
      (finalize_variables c scan.vars ds scan.freq_table, scan.warns)

/-- Embeds `Catalog.add_folder` on an existing directory (the
NotFound/NotADirectory guards precede any mutation): append the root
folder (built from the directory name when none is given), create the
sub-folders in sorted order, then process the discovered files in
sorted order.  Returns the new catalog and the warnings emitted. -/
def addFolderStep (pfx : String) (sids : List (List String × String))
    (infer_stats : Bool) (thr : Option Nat) (acc : Catalog × List String)
    (job : CsvJob) : Catalog × List String :=
  let r := process_csv_job acc.1 pfx sids job infer_stats thr
  (r.1, acc.2 ++ r.2)

def add_folder (c : Catalog) (rootName : String) (folder : Option Folder)
    (subdirs : List (List String)) (files : List CsvJob)
    (infer_stats : Bool) : Catalog × List String :=
  let rootFolder := folder.getD { id := sanitize_id rootName, name := rootName }
  let rootFolder :=
    { rootFolder with data_path := some rootName, ftype := some "filesystem" }
  let c := { c with folders := c.folders ++ [rootFolder] }
  let pfx := rootFolder.id
  let sf := create_subfolders pfx subdirs
  let c := { c with folders := c.folders ++ sf.1 }
  let freq_threshold := if c.freq_threshold = 0 then none
    else some c.freq_threshold
  (List.insertionSort
      (fun a b => strLe (joinSlash a.parts) (joinSlash b.parts)) files).foldl
    (addFolderStep pfx sf.2 infer_stats freq_threshold) (c, [])

/- ============================================================
   Single-Dataset Walker  (Catalog.add_dataset, catalog.py lines
   491-702).  The filesystem is a collaborator: a path is modelled by
   the facts the code queries about it, and the Parquet-directory scan
   result is an input.
   ============================================================ -/

/-- What `add_dataset` observes about its path argument. -/
structure PathInfo where
  pexists : Bool
  is_dir : Bool
  fname : String
  is_delta : Bool := false
  is_iceberg : Bool := false
  is_hive : Bool := false

/-- The error kinds raised by `add_dataset`
(FileNotFoundError / the two ValueError messages of catalog.py /
the unrecognized-directory ValueError of `_add_parquet_directory`). -/
inductive AddError where
  | fileNotFound
  | bothFolderAndFolderId
  | unsupportedFormat
  | unrecognizedParquetDir
deriving DecidableEq, Repr

/-- Result of `scan_parquet_dataset` for a directory dataset. -/
structure DirScan where
  vars : List Variable := []
  nb_row : Nat := 0
  freq_table : Option FreqTable := none
  meta_name : Option String := none
  meta_description : Option String := none

/-- Embeds `Catalog._add_parquet_directory`: classify the directory as
Delta, Iceberg or Hive (in that order), failing on anything else, then
build the dataset id from the folder id (Python truthiness: an empty
folder id is ignored) unless an explicit id is given, and append and
finalize the scanned dataset. -/
def add_parquet_directory (c : Catalog) (p : PathInfo)
    (folder_id : Option String) (scan : DirScan)
    (id name description : Option String) : Catalog × Option AddError :=
  let fmt :=
    if p.is_delta then some "delta"
    else if p.is_iceberg then some "iceberg"
    else if p.is_hive then some "parquet"
    else none
  match fmt with
  | none => (c, some .unrecognizedParquetDir)
  | some fmt =>
    let dataset_id :=
      match id with
      | some i => i
      | none =>
        let base := sanitize_id p.fname
        match folder_id with
        | some fid => if fid = "" then base else make_id [fid, base]
        | none => base
    let ds : Dataset :=
      { id := dataset_id,
        name := pyOr name (pyOr scan.meta_name p.fname),
        folder_id := folder_id,
        delivery_format := some fmt,
        nb_row := some scan.nb_row,
        description :=
          match description with
          | some d => some d
          | none => scan.meta_description }
    let c := { c with datasets := c.datasets ++ [ds] }
    (finalize_variables c scan.vars ds scan.freq_table, none)

/-- Embeds `Catalog.add_dataset`.  Mirrors the source's order of
effects: the existence check comes first; the given Folder is appended
(when its id is not already present) before the directory/file split,
so a later unsupported-format error leaves the appended Folder in the
catalog; the csv/excel scan is modelled by the CSV scanner.  Returns
the catalog after all mutations performed up to the point of return,
the error raised if any, and the warnings emitted.
`add_dataset_resolved` is the part after folder-id resolution. -/
def add_dataset_resolved (c : Catalog) (p : PathInfo)
    (resolved : Option String) (file : CsvFile) (dirScan : DirScan)
    (id name description : Option String) (infer_stats : Bool) :
    Catalog × Option AddError × List String :=
  if p.is_dir then
    let r := add_parquet_directory c p resolved dirScan id name description
    (r.1, r.2, [])
  else
    match lookupFormat (toLowerStr (suffixOf p.fname)) with
    | none => (c, some .unsupportedFormat, [])
    | some fmt =>
      let dataset_id :=
        match id with
        | some i => i
        | none =>
          let base := sanitize_id (stemOf p.fname)
          match resolved with
          | some fid => if fid = "" then base else make_id [fid, base]
          | none => base
      let scan := scan_csv file none infer_stats
        (if c.freq_threshold = 0 then none else some c.freq_threshold) none
      let ds : Dataset :=
        { id := dataset_id, name := pyOr name (stemOf p.fname),
          folder_id := resolved, delivery_format := some fmt,
          nb_row := some scan.nb_row, description := description }
      let c := { c with datasets := c.datasets ++ [ds] }
      (finalize_variables c scan.vars ds scan.freq_table, none, scan.warns)

def add_dataset (c : Catalog) (p : PathInfo) (folder : Option Folder)
    (folder_id : Option String) (file : CsvFile) (dirScan : DirScan)
    (id name description : Option String) (infer_stats : Bool) :
    Catalog × Option AddError × List String :=
  if !p.pexists then (c, some .fileNotFound, [])
  else
    match folder with
    | some f =>
      if folder_id.isSome then (c, some .bothFolderAndFolderId, [])
      else
        let c :=
          if c.folders.any (fun g => g.id = f.id) then c
          else { c with folders := c.folders ++ [f] }
        add_dataset_resolved c p (some f.id) file dirScan id name description
          infer_stats
    | none =>
      add_dataset_resolved c p folder_id file dirScan id name description
        infer_stats

/- ============================================================
   Prefix Grouper.  The module `_prefix.py` is imported by catalog.py
   and exercised by tests/test_prefix.py but is not under src/, so it
   is modelled from the spec (section 4.3).
   ============================================================ -/

/-- One emitted grouping folder: a name segment shared by several
tables and its optional surviving ancestor. -/
structure PfxFolder where
  pfx : String
  parent_pfx : Option String
deriving DecidableEq, Repr

/-- Split a list of characters at a separator (Python `str.split`). -/
def splitSepAux (sep : Char) : List Char → List Char → List (List Char)
  | [], acc => [acc.reverse]
  | c :: cs, acc =>
    if c = sep then acc.reverse :: splitSepAux sep cs []
    else splitSepAux sep cs (c :: acc)

/-- The separator-delimited tokens of a table name. -/
def splitSep (sep : Char) (s : String) : List String :=
  (splitSepAux sep s.data []).map (fun l => ⟨l⟩)

/-- Join tokens with the separator character. -/
def joinSep (sep : Char) : List String → String
  | [] => ""
  | [p] => p
  | p :: ps => p ++ ⟨[sep]⟩ ++ joinSep sep ps

/-- Whether the first character list is a leading run of the second. -/
def listIsLeading : List Char → List Char → Bool
  | [], _ => true
  | _ :: _, [] => false
  | a :: as, b :: bs => a = b && listIsLeading as bs

/-- Modelled from the spec: a table uses a grouping name when the
table name starts with that name followed by the separator (a table
named exactly like it does not count). -/
def usesPfxStr (sep : Char) (pstr : String) (table : String) : Bool :=
  listIsLeading (pstr.data ++ [sep]) table.data

/-- Candidate use at the token-sequence level. -/
def usesPfx (sep : Char) (cand : List String) (table : String) : Bool :=
  usesPfxStr sep (joinSep sep cand) table

/-- All non-empty leading token sequences of a table name. -/
def leadingSeqs (sep : Char) (table : String) : List (List String) :=
  let toks := splitSep sep table
  (List.range toks.length).map (fun i => toks.take (i + 1))

/-- Number of input tables using a candidate. -/
def pfxCount (sep : Char) (tables : List String) (p : List String) : Nat :=
  (tables.filter (fun t => usesPfx sep p t)).length

/-- All distinct candidates over the input tables. -/
def pfxCands (sep : Char) (tables : List String) : List (List String) :=
  (tables.foldr (fun t acc => leadingSeqs sep t ++ acc) []).dedup

/-- Candidates surviving the filters: used by at least `min_count`
tables but not by all of them. -/
def pfxSurvivors (tables : List String) (sep : Char) (min_count : Nat) :
    List (List String) :=
  (pfxCands sep tables).filter
    (fun p => min_count ≤ pfxCount sep tables p ∧
      pfxCount sep tables p ≠ tables.length)

/-- The longest surviving strict leading-token ancestor of a survivor. -/
def pfxParent (sep : Char) (survivors : List (List String))
    (p : List String) : Option (List String) :=
  (survivors.filter
    (fun q => q.length < p.length ∧
      usesPfxStr sep (joinSep sep q) (joinSep sep p))).foldl
    (fun best q =>
      match best with
      | none => some q
      | some b => if b.length < q.length then some q else some b)
    none

/-- Modelled from the spec: `get_prefix_folders` of the absent
`_prefix.py` (the name segment is written `pfx` here).  Candidates are
every non-empty leading token sequence of the input names; a candidate
survives when it is used by at least `min_count` tables but not by all
of them; each survivor's parent is its longest surviving strict
leading-token ancestor; survivors are emitted parents before children
(ordered by token count, then name). -/
def get_pfx_folders (tables : List String) (sep : Char) (min_count : Nat) :
    List PfxFolder :=
  let survivors := pfxSurvivors tables sep min_count
  let ordered := List.insertionSort
    (fun a b => a.length < b.length ∨
      (a.length = b.length ∧ strLe (joinSep sep a) (joinSep sep b))) survivors
  ordered.map (fun p =>
    { pfx := joinSep sep p,
      parent_pfx := (pfxParent sep survivors p).map (joinSep sep) })

/- ============================================================
   Auxiliary definitions used by the claim theorems
   ============================================================ -/

/-- The allowed-character rule of the amended claim C3: ASCII letters,
ASCII digits, underscore, comma, hyphen and space are kept; every
other character, Unicode letters included, becomes an underscore.
Written from the amended claim's words, to be compared with the
source-derived `sanitize_id`. -/
def amendedAllowedChar (c : Char) : Prop :=
  ('a' ≤ c ∧ c ≤ 'z') ∨ ('A' ≤ c ∧ c ≤ 'Z') ∨ ('0' ≤ c ∧ c ≤ '9') ∨
    c = '_' ∨ c = ',' ∨ c = '-' ∨ c = ' '

instance : DecidablePred amendedAllowedChar := fun c => by
  unfold amendedAllowedChar
  infer_instance

/-- The sanitizer of the amended claim C3, character by character. -/
def sanitizeAmended (s : String) : String :=
  ⟨s.data.map (fun c => if amendedAllowedChar c then c else '_')⟩

/-- The naive separator join of a value set: the encoding that the spec
forbids hashing directly, because different sets can share it. -/
def naiveJoin (values : List String) : String := joinSep '|' (canonSig values)

/-- The five-row example table of the claim. -/
def exTable5 : DataFrame :=
  { height := 5,
    cols := [{ name := "department", dtype := "string",
               cells := [some "Engineering", some "Engineering",
                         some "Sales", some "Sales", some "HR"] }] }

/-- Signature lookup in the modality index (the dict read
`self._modality_index[signature]`). -/
def lookupSig (c : Catalog) (sig : List String) : Option String :=
  (c.modality_index.find? (fun p => p.1 = sig)).map Prod.snd

/-- Catalog states reachable from a starting state by further modality
requests and variable finalizations within the same build. -/
inductive ModalityReach : Catalog → Catalog → Prop
  | refl (c : Catalog) : ModalityReach c c
  | modality (c c' : Catalog) (values : List String) :
      ModalityReach c c' →
      ModalityReach c ((get_or_create_modality c' values).2)
  | finalize (c c' : Catalog) (vs : List Variable) (ds : Dataset)
      (ft : Option FreqTable) :
      ModalityReach c c' →
      ModalityReach c (finalize_variables c' vs ds ft)

/-- Everything equal except possibly the modality assignment. -/
def eqExceptModality (w w' : Variable) : Prop :=
  w'.id = w.id ∧ w'.name = w.name ∧ w'.dataset_id = w.dataset_id ∧
  w'.vtype = w.vtype ∧ w'.nb_distinct = w.nb_distinct ∧
  w'.nb_duplicate = w.nb_duplicate ∧ w'.nb_missing = w.nb_missing

/-- Every folder of the list from position `base` on that carries a
parent reference can resolve it against a folder strictly earlier in
the list: a consumer can resolve parent_id in a single ordered pass. -/
def ParentsPrecede (base : Nat) (fs : List Folder) : Prop :=
  ∀ i f p, base ≤ i → fs.get? i = some f → f.parent_id = some p →
    ∃ j g, j < i ∧ fs.get? j = some g ∧ g.id = p

/- ============================================================
   Order-theoretic facts about the string comparison, and the
   canonical-signature lemmas used by the claim theorems.
   ============================================================ -/

theorem listLeb_total (a b : List Char) :
    listLeb a b = true ∨ listLeb b a = true := by
  induction a generalizing b with
  | nil => left; rfl
  | cons x xs ih =>
    cases b with
    | nil => right; rfl
    | cons y ys =>
      by_cases h : x = y
      · subst h
        rcases ih ys with h' | h'
        · left; simpa [listLeb] using h'
        · right; simpa [listLeb] using h'
      · rcases lt_or_gt_of_ne h with hlt | hgt
        · left; simp [listLeb, h, hlt]
        · right; simp [listLeb, Ne.symm h, hgt]

theorem listLeb_trans {a b c : List Char} (hab : listLeb a b = true)
    (hbc : listLeb b c = true) : listLeb a c = true := by
  induction a generalizing b c with
  | nil => rfl
  | cons x xs ih =>
    cases b with
    | nil => simp [listLeb] at hab
    | cons y ys =>
      cases c with
      | nil => simp [listLeb] at hbc
      | cons z zs =>
        by_cases hxy : x = y <;> by_cases hyz : y = z
        · subst hxy; subst hyz
          simp only [listLeb, if_pos rfl] at hab hbc ⊢
          exact ih hab hbc
        · subst hxy
          simp only [listLeb, if_pos rfl] at hab
          simp only [listLeb, if_neg hyz, decide_eq_true_eq] at hbc
          simp [listLeb, hyz, hbc]
        · subst hyz
          simp only [listLeb, if_neg hxy, decide_eq_true_eq] at hab
          simp [listLeb, hxy, hab]
        · simp only [listLeb, if_neg hxy, decide_eq_true_eq] at hab
          simp only [listLeb, if_neg hyz, decide_eq_true_eq] at hbc
          have hxz : x < z := lt_trans hab hbc
          simp [listLeb, ne_of_lt hxz, hxz]

theorem listLeb_antisymm {a b : List Char} (hab : listLeb a b = true)
    (hba : listLeb b a = true) : a = b := by
  induction a generalizing b with
  | nil =>
    cases b with
    | nil => rfl
    | cons y ys => simp [listLeb] at hba
  | cons x xs ih =>
    cases b with
    | nil => simp [listLeb] at hab
    | cons y ys =>
      by_cases h : x = y
      · subst h
        simp only [listLeb, if_pos rfl] at hab hba
        exact congrArg (x :: ·) (ih hab hba)
      · simp only [listLeb, if_neg h, decide_eq_true_eq] at hab
        simp only [listLeb, if_neg (Ne.symm h), decide_eq_true_eq] at hba
        exact absurd hba (not_lt.mpr (le_of_lt hab))

instance : IsTotal String strLe :=
  ⟨fun a b => listLeb_total a.data b.data⟩

instance : IsTrans String strLe :=
  ⟨fun _ _ _ hab hbc => listLeb_trans hab hbc⟩

instance : IsAntisymm String strLe :=
  ⟨fun a b hab hba => by
    cases a; cases b
    exact congrArg String.mk (listLeb_antisymm hab hba)⟩

theorem canonSig_perm_dedup (v : List String) : (canonSig v).Perm v.dedup :=
  List.perm_insertionSort strLe v.dedup

theorem canonSig_sorted (v : List String) : List.Sorted strLe (canonSig v) :=
  List.sorted_insertionSort strLe v.dedup

/-- Set-equal value lists have equal canonical signatures: the frozen
set determines the signature key. -/
theorem canonSig_eq_of_toFinset_eq {v₁ v₂ : List String}
    (h : v₁.toFinset = v₂.toFinset) : canonSig v₁ = canonSig v₂ := by
  have hperm : v₁.dedup.Perm v₂.dedup := List.toFinset_eq_iff_perm_dedup.mp h
  exact List.eq_of_perm_of_sorted
    ((canonSig_perm_dedup v₁).trans (hperm.trans (canonSig_perm_dedup v₂).symm))
    (canonSig_sorted v₁) (canonSig_sorted v₂)

/-- The canonical signature carries exactly the value set. -/
theorem canonSig_toFinset (v : List String) :
    (canonSig v).toFinset = v.toFinset := by
  have h1 : (canonSig v).toFinset = v.dedup.toFinset :=
    List.toFinset_eq_of_perm _ _ (canonSig_perm_dedup v)
  have h2 : v.dedup.toFinset = v.toFinset := by
    rw [List.toFinset_eq_iff_perm_dedup, List.dedup_idem]
  exact h1.trans h2

theorem char_toNat_inj : Function.Injective Char.toNat := fun a b h =>
  Char.ofNat_toNat a ▸ Char.ofNat_toNat b ▸ congrArg Char.ofNat h

/-- The length-prefixed encoding is injective on value lists: no two
different lists of strings produce the same hash input. -/
theorem encodeVals_inj : ∀ {l₁ l₂ : List String},
    encodeVals l₁ = encodeVals l₂ → l₁ = l₂ := by
  intro l₁
  induction l₁ with
  | nil =>
    intro l₂ h
    cases l₂ with
    | nil => rfl
    | cons b bs => simp [encodeVals] at h
  | cons a as ih =>
    intro l₂ h
    cases l₂ with
    | nil => simp [encodeVals] at h
    | cons b bs =>
      simp only [encodeVals, List.flatMap_cons, List.cons_append,
        List.cons.injEq] at h
      obtain ⟨hlen, htail⟩ := h
      have hmaplen : (a.data.map Char.toNat).length =
          (b.data.map Char.toNat).length := by
        simp only [List.length_map]
        exact hlen
      obtain ⟨hmap, hrest⟩ := List.append_inj htail hmaplen
      have hdata : a.data = b.data :=
        List.map_injective_iff.mpr char_toNat_inj hmap
      have hab : a = b := by
        cases a; cases b
        exact congrArg String.mk hdata
      have hbs : as = bs := ih hrest
      rw [hab, hbs]

/- ============================================================
   Claim theorems
   ============================================================ -/

theorem isAllowedIdChar_iff (c : Char) :
    isAllowedIdChar c = true ↔ amendedAllowedChar c := by
  unfold isAllowedIdChar amendedAllowedChar
  simp only [Bool.or_eq_true, Bool.and_eq_true, decide_eq_true_eq]
  tauto

/-- Claim C3, counterexample: the claim says Unicode letters such as
accented letters are preserved by sanitize, but the source's character
class is ASCII-only, so sanitize_id maps the letter e-acute to an
underscore instead of leaving it unchanged. -/
theorem sanitize_unicode_counterexample :
    sanitize_id "é" = "_" ∧ sanitize_id "é" ≠ "é" := by
  decide

/-- Claim C3 as amended: sanitize_id replaces every character outside
the ASCII set of letters, digits, underscore, comma, hyphen and space
with an underscore and leaves every character of that set (spaces
included) unchanged; non-ASCII characters, Unicode letters included,
are replaced. -/
theorem sanitize_id_is_amended_rule :
    (∀ s : String, sanitize_id s = sanitizeAmended s) ∧
    sanitize_id " a,b-c_9 " = " a,b-c_9 " ∧ sanitize_id "é α 漢" = "_ _ _" := by
  refine ⟨?_, by decide, by decide⟩
  intro s
  unfold sanitize_id sanitizeAmended
  have hfun : (fun c => if isAllowedIdChar c then c else '_') =
      (fun c => if amendedAllowedChar c then c else '_') := by
    funext c
    by_cases h : amendedAllowedChar c
    · rw [if_pos ((isAllowedIdChar_iff c).mpr h), if_pos h]
    · rw [if_neg (fun hb => h ((isAllowedIdChar_iff c).mp hb)), if_neg h]
  rw [hfun]

/-- Claim C9: sanitize keeps the hyphen, so a name containing the
literal separator survives sanitization, and joining sanitized parts is
not injective: the dataset named b---c directly under folder a and the
dataset named c in subfolder b of folder a receive the same id
a---b---c, although the two hierarchies are different, so splitting an
id on the separator does not uniquely recover the hierarchy. -/
theorem hierarchical_ids_not_injective :
    sanitize_id "b---c" = "b---c" ∧
    make_id ["a", sanitize_id "b---c"] =
      make_id [make_id ["a", "b"], sanitize_id "c"] ∧
    make_id ["a", "b---c"] = "a---b---c" ∧
    ("a", sanitize_id "b---c") ≠ (make_id ["a", "b"], sanitize_id "c") := by
  decide

/-- Claim C6: get_pfx_folders produces no grouping folder for the
tables app_users, app_orders, app_products with the default separator
and minimum count (the shared leading segment app is used by all tables
and is excluded); and in general no emitted entry's name is used by
every input table. -/
theorem universal_pfx_excluded :
    get_pfx_folders ["app_users", "app_orders", "app_products"] '_' 2 = [] ∧
    ∀ (tables : List String) (sep : Char) (mc : Nat) (pf : PfxFolder),
      pf ∈ get_pfx_folders tables sep mc →
      ¬ ∀ t ∈ tables, usesPfxStr sep pf.pfx t = true := by
  refine ⟨by decide, ?_⟩
  intro tables sep mc pf hmem hall
  unfold get_pfx_folders at hmem
  simp only [List.mem_map] at hmem
  obtain ⟨p, hp, rfl⟩ := hmem
  have hsurv : p ∈ pfxSurvivors tables sep mc :=
    (List.mem_insertionSort _).mp hp
  have hfilter := (List.mem_filter.mp hsurv).2
  have hne : pfxCount sep tables p ≠ tables.length :=
    (of_decide_eq_true hfilter).2
  apply hne
  unfold pfxCount
  have : tables.filter (fun t => usesPfx sep p t) = tables :=
    List.filter_eq_self.mpr (fun t ht => hall t ht)
  rw [this]

/-- The thrown-away companion of `universal_pfx_excluded`: a surviving
entry applied at a concrete input. -/
theorem universal_pfx_excluded_witness :
    ({ pfx := "hr", parent_pfx := none } : PfxFolder) ∈
      get_pfx_folders ["hr_employees", "hr_departments", "sales_orders"] '_' 2 ∧
    ¬ ∀ t ∈ ["hr_employees", "hr_departments", "sales_orders"],
      usesPfxStr '_' "hr" t = true := by
  refine ⟨by decide, ?_⟩
  exact universal_pfx_excluded.2
    ["hr_employees", "hr_departments", "sales_orders"] '_' 2
    { pfx := "hr", parent_pfx := none } (by decide)

/-- Claim C8: the two value sets of the claim share their naive
concatenation yet receive different 10-character hashes and different
modality ids; and in general any two value sets that are not set-equal
(in particular any two different sets with coinciding naive
concatenations) produce different inputs to the hash, because the
length-prefixed encoding is self-describing. -/
theorem modality_hash_separator_collision :
    compute_modality_hash ["A|B", "C"] ≠ compute_modality_hash ["A", "B|C"] ∧
    (get_or_create_modality {} ["A|B", "C"]).1 ≠
      (get_or_create_modality {} ["A", "B|C"]).1 ∧
    naiveJoin ["A|B", "C"] = naiveJoin ["A", "B|C"] ∧
    ∀ v₁ v₂ : List String, v₁.toFinset ≠ v₂.toFinset →
      naiveJoin v₁ = naiveJoin v₂ →
      encodeVals (canonSig v₁) ≠ encodeVals (canonSig v₂) := by
  refine ⟨by decide, by decide, by decide, ?_⟩
  intro v₁ v₂ hne _ henc
  exact hne (canonSig_toFinset v₁ ▸ canonSig_toFinset v₂ ▸
    congrArg List.toFinset (encodeVals_inj henc))

/-- Companion of `modality_hash_separator_collision`: the universal
part applied at the claim's own pair of value sets. -/
theorem modality_hash_separator_collision_witness :
    encodeVals (canonSig ["A|B", "C"]) ≠ encodeVals (canonSig ["A", "B|C"]) :=
  modality_hash_separator_collision.2.2.2 ["A|B", "C"] ["A", "B|C"]
    (by decide) (by decide)

theorem nUnique_take_le (cells : List (Option String)) (n : Nat) :
    nUnique (cells.take n) ≤ n := by
  unfold nUnique
  exact le_trans (List.dedup_sublist _).length_le
    (le_trans (le_of_eq (List.length_take _ _)) (Nat.min_le_left _ _))

/-- Claim C4: when a sample size smaller than the table's row count is
configured, scan_table returns the exact full row count, computes the
statistics and frequency table over the truncated table only, and every
reported distinct count is bounded by the sample size. -/
theorem scan_table_exact_count_sampled_stats :
    ∀ (t : DataFrame) (dsid : Option String) (thr : Option Nat) (n : Nat),
      n < t.height →
      (scan_table t dsid true thr (some n)).2.1 = t.height ∧
      (scan_table t dsid true thr (some n)).1 =
        (build_variables (dfLimit t n) dsid true thr).1 ∧
      (scan_table t dsid true thr (some n)).2.2 =
        (build_variables (dfLimit t n) dsid true thr).2 ∧
      ∀ v ∈ (scan_table t dsid true thr (some n)).1,
        ∀ d, v.nb_distinct = some d → d ≤ n := by
  intro t dsid thr n hn
  have hbranch : scan_table t dsid true thr (some n) =
      ((build_variables (dfLimit t n) dsid true thr).1, t.height,
       (build_variables (dfLimit t n) dsid true thr).2) := by
    unfold scan_table
    simp [hn]
  refine ⟨by rw [hbranch], by rw [hbranch], by rw [hbranch], ?_⟩
  intro v hv d hd
  rw [hbranch] at hv
  unfold build_variables at hv
  simp only [List.mem_map] at hv
  obtain ⟨col, hcol, rfl⟩ := hv
  unfold dfLimit at hcol
  simp only [List.mem_map] at hcol
  obtain ⟨col0, _, rfl⟩ := hcol
  simp only [if_pos rfl] at hd
  have hd' : d = nUnique (col0.cells.take n) := by
    injection hd with h
    exact h.symm
  rw [hd']
  exact nUnique_take_le col0.cells n

/-- Companion of `scan_table_exact_count_sampled_stats`: the claim's
five-row table scanned with sample size two yields row count five and
distinct counts at most two. -/
theorem scan_table_exact_count_sampled_stats_witness :
    (scan_table exTable5 none true (some 100) (some 2)).2.1 = 5 ∧
    ∀ v ∈ (scan_table exTable5 none true (some 100) (some 2)).1,
      ∀ d, v.nb_distinct = some d → d ≤ 2 := by
  have h := scan_table_exact_count_sampled_stats exTable5 none (some 100) 2
    (by decide)
  exact ⟨h.1, h.2.2.2⟩

/- ============================================================
   Modality deduplication (claim C1) and variable finalization
   (claim C2)
   ============================================================ -/

theorem get_or_create_modality_vars (c : Catalog) (v : List String) :
    ((get_or_create_modality c v).2).vars = c.vars := by
  unfold get_or_create_modality
  dsimp only
  split
  · rfl
  · dsimp only
    unfold ensure_modalities_folder
    split <;> rfl

theorem get_or_create_modality_datasets (c : Catalog) (v : List String) :
    ((get_or_create_modality c v).2).datasets = c.datasets := by
  unfold get_or_create_modality
  dsimp only
  split
  · rfl
  · dsimp only
    unfold ensure_modalities_folder
    split <;> rfl

theorem get_or_create_modality_folders (c : Catalog) (v : List String) :
    ∃ extra, ((get_or_create_modality c v).2).folders = c.folders ++ extra ∧
      ∀ g ∈ extra, g.parent_id = none := by
  unfold get_or_create_modality
  dsimp only
  split
  · exact ⟨[], by simp, by simp⟩
  · dsimp only
    unfold ensure_modalities_folder
    split
    · exact ⟨[], by simp, by simp⟩
    · refine ⟨[{ id := MODALITIES_FOLDER_ID, name := "Modalities" }], rfl, ?_⟩
      intro g hg
      simp only [List.mem_singleton] at hg
      subst hg
      rfl

/-- After any request, the signature is indexed to the returned id. -/
theorem lookupSig_after (c : Catalog) (v : List String) :
    lookupSig (get_or_create_modality c v).2 (canonSig v) =
      some (get_or_create_modality c v).1 := by
  unfold get_or_create_modality lookupSig
  dsimp only
  split
  case _ p hp =>
    have h1 : p.1 = canonSig v := by
      have := List.find?_some hp
      exact of_decide_eq_true this
    simp [hp]
  case _ hp =>
    unfold ensure_modalities_folder
    split <;>
    · simp only [List.find?_append, hp, Option.none_or]
      simp

/-- A hit in the index returns the indexed id and leaves the catalog
untouched. -/
theorem get_or_create_modality_hit (c : Catalog) (v : List String)
    (i : String) (h : lookupSig c (canonSig v) = some i) :
    get_or_create_modality c v = (i, c) := by
  unfold lookupSig at h
  unfold get_or_create_modality
  dsimp only
  split
  case _ p hp =>
    rw [hp] at h
    simp only [Option.map] at h
    injection h with h
    rw [h]
  case _ hp =>
    rw [hp] at h
    simp at h

/-- The index only grows: existing entries keep winning the lookup. -/
theorem lookupSig_mono_modality (c : Catalog) (v : List String)
    (sig : List String) (i : String) (h : lookupSig c sig = some i) :
    lookupSig (get_or_create_modality c v).2 sig = some i := by
  unfold lookupSig at h ⊢
  unfold get_or_create_modality
  dsimp only
  split
  · exact h
  · dsimp only
    unfold ensure_modalities_folder
    split <;>
    · simp only [List.find?_append]
      cases hf : c.modality_index.find? (fun p => decide (p.1 = sig)) with
      | none => rw [hf] at h; simp at h
      | some p =>
        rw [hf] at h
        simpa using h

theorem assignStep_fst (m : List (String × String))
    (fbv : List (String × List String)) (cd : Catalog × List Variable)
    (v : Variable) :
    (assignStep m fbv cd v).1 = cd.1 ∨
      ∃ vals, (assignStep m fbv cd v).1 =
        (get_or_create_modality cd.1 vals).2 := by
  unfold assignStep
  split
  · left; rfl
  · split
    · split
      · left; rfl
      · right; exact ⟨_, rfl⟩
    · left; rfl

theorem assignStep_snd (m : List (String × String))
    (fbv : List (String × List String)) (cd : Catalog × List Variable)
    (v : Variable) :
    ∃ w, (assignStep m fbv cd v).2 = cd.2 ++ [w] ∧ eqExceptModality v w := by
  unfold assignStep
  split
  · exact ⟨v, rfl, by unfold eqExceptModality; tauto⟩
  · split
    · split
      · exact ⟨v, rfl, by unfold eqExceptModality; tauto⟩
      · exact ⟨_, rfl, by unfold eqExceptModality; tauto⟩
    · exact ⟨v, rfl, by unfold eqExceptModality; tauto⟩

theorem assignFold_vars (m : List (String × String))
    (fbv : List (String × List String)) :
    ∀ (vs : List Variable) (cd : Catalog × List Variable),
      ((vs.foldl (assignStep m fbv) cd).1).vars = cd.1.vars := by
  intro vs
  induction vs with
  | nil => intro cd; rfl
  | cons v vs ih =>
    intro cd
    rw [List.foldl_cons, ih]
    rcases assignStep_fst m fbv cd v with h | ⟨vals, h⟩
    · rw [h]
    · rw [h, get_or_create_modality_vars]

theorem assignFold_datasets (m : List (String × String))
    (fbv : List (String × List String)) :
    ∀ (vs : List Variable) (cd : Catalog × List Variable),
      ((vs.foldl (assignStep m fbv) cd).1).datasets = cd.1.datasets := by
  intro vs
  induction vs with
  | nil => intro cd; rfl
  | cons v vs ih =>
    intro cd
    rw [List.foldl_cons, ih]
    rcases assignStep_fst m fbv cd v with h | ⟨vals, h⟩
    · rw [h]
    · rw [h, get_or_create_modality_datasets]

theorem assignFold_snd (m : List (String × String))
    (fbv : List (String × List String)) :
    ∀ (vs : List Variable) (cd : Catalog × List Variable),
      ∃ suf, (vs.foldl (assignStep m fbv) cd).2 = cd.2 ++ suf ∧
        List.Forall₂ eqExceptModality vs suf := by
  intro vs
  induction vs with
  | nil => exact fun cd => ⟨[], by simp, List.Forall₂.nil⟩
  | cons v vs ih =>
    intro cd
    obtain ⟨w, hw, hpred⟩ := assignStep_snd m fbv cd v
    obtain ⟨suf, hsuf, hall⟩ := ih (assignStep m fbv cd v)
    refine ⟨w :: suf, ?_, List.Forall₂.cons hpred hall⟩
    rw [List.foldl_cons, hsuf, hw, List.append_assoc]
    rfl

theorem lookupSig_mono_assignFold (m : List (String × String))
    (fbv : List (String × List String)) (sig : List String) (i : String) :
    ∀ (vs : List Variable) (cd : Catalog × List Variable),
      lookupSig cd.1 sig = some i →
      lookupSig ((vs.foldl (assignStep m fbv) cd).1) sig = some i := by
  intro vs
  induction vs with
  | nil => exact fun cd h => h
  | cons v vs ih =>
    intro cd h
    rw [List.foldl_cons]
    apply ih
    rcases assignStep_fst m fbv cd v with heq | ⟨vals, heq⟩
    · rw [heq]; exact h
    · rw [heq]; exact lookupSig_mono_modality cd.1 vals sig i h

theorem lookupSig_mono_finalize (c : Catalog) (vs : List Variable)
    (ds : Dataset) (ft : Option FreqTable) (sig : List String) (i : String)
    (h : lookupSig c sig = some i) :
    lookupSig (finalize_variables c vs ds ft) sig = some i := by
  unfold finalize_variables
  have hm := lookupSig_mono_assignFold (finalizeVarIds ds.id vs).2
    (match ft with | some rows => freqByVar rows | none => [])
    sig i (finalizeVarIds ds.id vs).1 (c, []) h
  cases ft <;> exact hm

theorem lookupSig_mono_reach (c c' : Catalog) (sig : List String)
    (i : String) (hreach : ModalityReach c c')
    (h : lookupSig c sig = some i) : lookupSig c' sig = some i := by
  induction hreach with
  | refl => exact h
  | modality _ values _ ih => exact lookupSig_mono_modality _ values sig i ih
  | finalize _ vs ds ft _ ih => exact lookupSig_mono_finalize _ vs ds ft sig i ih

/-- Claim C1: requesting a modality for a value list that is set-equal
to one already requested earlier in the same build (order and duplicate
count irrelevant) returns the id assigned at the first request and
changes nothing: no Modality, no Value, nothing at all is appended.  In
particular two variables finalized at any later point whose distinct
value sets are set-equal reference exactly one shared Modality. -/
theorem modality_set_dedup :
    ∀ (c : Catalog) (v₁ v₂ : List String),
      v₁.toFinset = v₂.toFinset →
      ∀ c', ModalityReach (get_or_create_modality c v₁).2 c' →
        (get_or_create_modality c' v₂).1 =
          (get_or_create_modality c v₁).1 ∧
        ((get_or_create_modality c' v₂).2).modalities = c'.modalities ∧
        ((get_or_create_modality c' v₂).2).values = c'.values ∧
        (get_or_create_modality c' v₂).2 = c' := by
  intro c v₁ v₂ hset c' hreach
  have h1 := lookupSig_after c v₁
  have h2 := lookupSig_mono_reach _ c' (canonSig v₁)
    (get_or_create_modality c v₁).1 hreach h1
  rw [canonSig_eq_of_toFinset_eq hset] at h2
  have h3 := get_or_create_modality_hit c' v₂ _ h2
  rw [h3]
  exact ⟨rfl, rfl, rfl, rfl⟩

/-- Companion of `modality_set_dedup`: the claim applied to the value
sets M,F and F,M starting from the empty catalog, with no intervening
requests. -/
theorem modality_set_dedup_witness :
    (get_or_create_modality
        ((get_or_create_modality {} ["M", "F"]).2) ["F", "M"]).1 =
      (get_or_create_modality {} ["M", "F"]).1 ∧
    (get_or_create_modality
        ((get_or_create_modality {} ["M", "F"]).2) ["F", "M"]).2 =
      (get_or_create_modality {} ["M", "F"]).2 := by
  have h := modality_set_dedup {} ["M", "F"] ["F", "M"] (by decide)
    ((get_or_create_modality {} ["M", "F"]).2) (ModalityReach.refl _)
  exact ⟨h.1, h.2.2.2⟩

theorem finalizeVarIds_fst_general (d : String) :
    ∀ (vs : List Variable) (acc : List Variable × List (String × String)),
      (vs.foldl (finalizeVarStep d) acc).1 =
        acc.1 ++ vs.map (fun v =>
          { v with dataset_id := some d, id := finalVarId d v }) := by
  intro vs
  induction vs with
  | nil => intro acc; simp
  | cons v vs ih =>
    intro acc
    rw [List.foldl_cons, ih]
    simp [finalizeVarStep]

/-- Claim C2: finalizing a freshly-scanned variable list for a dataset
appends to the catalog exactly one finalized variable per input
variable, whose final id is make_id of the dataset id and the sanitized
name (the name falling back to the provisional id) — so it has the form
dataset_id, separator, sanitized name — and whose dataset_id is the
dataset's id. -/
theorem finalize_variables_final_ids :
    (∀ a b : String, make_id [a, b] = a ++ ID_SEPARATOR ++ b) ∧
    ∀ (c : Catalog) (vs : List Variable) (ds : Dataset)
      (ft : Option FreqTable),
      ∃ finals, (finalize_variables c vs ds ft).vars = c.vars ++ finals ∧
        List.Forall₂
          (fun v v' =>
            v'.id = make_id [ds.id, sanitize_id (pyOr v.name v.id)] ∧
            v'.dataset_id = some ds.id) vs finals := by
  refine ⟨fun a b => rfl, ?_⟩
  intro c vs ds ft
  obtain ⟨suf, hsuf, hall⟩ := assignFold_snd (finalizeVarIds ds.id vs).2
    (match ft with | some rows => freqByVar rows | none => [])
    (finalizeVarIds ds.id vs).1 (c, [])
  have hvars1 := assignFold_vars (finalizeVarIds ds.id vs).2
    (match ft with | some rows => freqByVar rows | none => [])
    (finalizeVarIds ds.id vs).1 (c, [])
  refine ⟨suf, ?_, ?_⟩
  · unfold finalize_variables
    unfold assign_modalities
    cases ft with
    | none =>
      simp only []
      rw [hvars1, hsuf]
      simp
    | some rows =>
      simp only []
      rw [hvars1, hsuf]
      simp
  · have hfst : (finalizeVarIds ds.id vs).1 = vs.map (fun v =>
        { v with dataset_id := some ds.id, id := finalVarId ds.id v }) := by
      unfold finalizeVarIds
      rw [finalizeVarIds_fst_general]
      simp
    rw [hfst, List.forall₂_map_left_iff] at hall
    exact hall.imp (fun v w h => ⟨h.1, h.2.2.1⟩)

/- ============================================================
   Scan and finalization behavior lemmas (claims C7, C10, C5)
   ============================================================ -/

theorem scan_csv_empty (f : CsvFile) (dsid : Option String) (infer : Bool)
    (thr : Option Nat) (enc : Option String) (h : f.size = 0) :
    scan_csv f dsid infer thr enc = ⟨[], 0, none, []⟩ := by
  unfold scan_csv
  rw [if_pos h]

theorem scan_csv_unparseable (f : CsvFile) (dsid : Option String)
    (infer : Bool) (thr : Option Nat) (h : f.size ≠ 0)
    (hp : ∀ e, f.parse e = none) :
    scan_csv f dsid infer thr none =
      ⟨[], 0, none, ["Could not parse CSV file"]⟩ := by
  unfold scan_csv
  rw [if_neg h]
  have htry : tryEncodings f (build_encoding_order none) = none := by
    simp [tryEncodings, build_encoding_order, hp]
  rw [htry]

theorem scan_csv_parsed (f : CsvFile) (dsid : Option String) (infer : Bool)
    (thr : Option Nat) (df : DataFrame) (h : f.size ≠ 0)
    (hp : f.parse none = some df) :
    scan_csv f dsid infer thr none =
      ⟨(build_variables df dsid infer thr).1, df.height,
       (build_variables df dsid infer thr).2, []⟩ := by
  unfold scan_csv
  rw [if_neg h]
  have htry : tryEncodings f (build_encoding_order none) = some df := by
    simp [tryEncodings, build_encoding_order, hp]
  rw [htry]

theorem finalize_variables_datasets (c : Catalog) (vs : List Variable)
    (ds : Dataset) (ft : Option FreqTable) :
    (finalize_variables c vs ds ft).datasets = c.datasets := by
  unfold finalize_variables assign_modalities
  cases ft <;> · dsimp only; rw [assignFold_datasets]

theorem finalize_variables_nil (c : Catalog) (ds : Dataset) :
    finalize_variables c [] ds none = c := by
  unfold finalize_variables assign_modalities finalizeVarIds
  simp

theorem assignFold_folders (m : List (String × String))
    (fbv : List (String × List String)) :
    ∀ (vs : List Variable) (cd : Catalog × List Variable),
      ∃ extra, ((vs.foldl (assignStep m fbv) cd).1).folders =
        cd.1.folders ++ extra ∧ ∀ g ∈ extra, g.parent_id = none := by
  intro vs
  induction vs with
  | nil => exact fun cd => ⟨[], by simp, by simp⟩
  | cons v vs ih =>
    intro cd
    obtain ⟨e2, he2, hn2⟩ := ih (assignStep m fbv cd v)
    rcases assignStep_fst m fbv cd v with h | ⟨vals, h⟩
    · refine ⟨e2, ?_, hn2⟩
      rw [List.foldl_cons, he2, h]
    · obtain ⟨e1, he1, hn1⟩ := get_or_create_modality_folders cd.1 vals
      refine ⟨e1 ++ e2, ?_, ?_⟩
      · rw [List.foldl_cons, he2, h, he1, List.append_assoc]
      · intro g hg
        rcases List.mem_append.mp hg with hg | hg
        · exact hn1 g hg
        · exact hn2 g hg

theorem finalize_variables_folders (c : Catalog) (vs : List Variable)
    (ds : Dataset) (ft : Option FreqTable) :
    ∃ extra, (finalize_variables c vs ds ft).folders = c.folders ++ extra ∧
      ∀ g ∈ extra, g.parent_id = none := by
  unfold finalize_variables assign_modalities
  obtain ⟨extra, he, hn⟩ := assignFold_folders (finalizeVarIds ds.id vs).2
    (match ft with | some rows => freqByVar rows | none => [])
    (finalizeVarIds ds.id vs).1 (c, [])
  cases ft <;> exact ⟨extra, he, hn⟩

/-- Claim C10: calling add_dataset with an explicit Folder (not yet in
the catalog) and an existing file path whose extension is unsupported
raises the unsupported-format ValueError only after the Folder has been
appended to the catalog's folders collection: on this error path the
folders list is already mutated while no Dataset is appended and
nothing else changes. -/
theorem add_dataset_unsupported_after_folder_append :
    ∀ (c : Catalog) (p : PathInfo) (f : Folder) (file : CsvFile)
      (dirScan : DirScan) (id name description : Option String)
      (infer : Bool),
      p.pexists = true → p.is_dir = false →
      lookupFormat (toLowerStr (suffixOf p.fname)) = none →
      (∀ g ∈ c.folders, g.id ≠ f.id) →
      add_dataset c p (some f) none file dirScan id name description infer =
        ({ c with folders := c.folders ++ [f] },
         some AddError.unsupportedFormat, []) := by
  intro c p f file dirScan id name description infer hex hdir hfmt hnew
  have hany : (c.folders.any (fun g => g.id = f.id)) = false := by
    rw [List.any_eq_false]
    intro g hg
    simpa using hnew g hg
  unfold add_dataset
  rw [hex]
  simp only [Bool.not_true, Bool.false_eq_true, if_false, ite_false,
    Option.isSome_none]
  rw [hany]
  simp only [Bool.false_eq_true, if_false, ite_false]
  unfold add_dataset_resolved
  rw [hdir]
  simp only [Bool.false_eq_true, if_false, ite_false]
  rw [hfmt]

/-- Companion of `add_dataset_unsupported_after_folder_append` at a
concrete input: an existing file data.xyz with a fresh Folder. -/
theorem add_dataset_unsupported_after_folder_append_witness :
    add_dataset {} { pexists := true, is_dir := false, fname := "data.xyz" }
        (some { id := "docs", name := "Docs" }) none ⟨1, fun _ => none⟩ {}
        none none none true =
      ({ folders := [{ id := "docs", name := "Docs" }] },
       some AddError.unsupportedFormat, []) := by
  have h := add_dataset_unsupported_after_folder_append {}
    { pexists := true, is_dir := false, fname := "data.xyz" }
    { id := "docs", name := "Docs" } ⟨1, fun _ => none⟩ {} none none none true
    rfl rfl (by decide) (by simp)
  exact h

theorem pyOr_self (s : String) : pyOr (some s) s = s := by
  show (if s = "" then s else s) = s
  split <;> rfl

theorem finalize_variables_vars (c : Catalog) (vs : List Variable)
    (ds : Dataset) (ft : Option FreqTable) :
    (finalize_variables c vs ds ft).vars =
      c.vars ++ (assign_modalities c (finalizeVarIds ds.id vs).1
        (finalizeVarIds ds.id vs).2
        (match ft with | some rows => freqByVar rows | none => [])).2 := by
  unfold finalize_variables
  cases ft <;>
  · dsimp only
    unfold assign_modalities
    rw [assignFold_vars]

theorem process_csv_job_csv (c : Catalog) (pfx : String)
    (sids : List (List String × String)) (parts : List String) (f : CsvFile)
    (infer : Bool) (thr : Option Nat)
    (hfmt : lookupFormat (toLowerStr (suffixOf (parts.getLastD ""))) =
      some "csv") :
    process_csv_job c pfx sids ⟨parts, f⟩ infer thr =
      (finalize_variables
        { c with datasets := c.datasets ++
            [{ id := make_id (pfx :: parts.map sanitize_id),
               name := stemOf (parts.getLastD ""),
               folder_id := some (get_folder_id parts pfx sids),
               delivery_format := some "csv",
               nb_row := some (scan_csv f none infer thr none).nb_row }] }
        (scan_csv f none infer thr none).vars
        { id := make_id (pfx :: parts.map sanitize_id),
          name := stemOf (parts.getLastD ""),
          folder_id := some (get_folder_id parts pfx sids),
          delivery_format := some "csv",
          nb_row := some (scan_csv f none infer thr none).nb_row }
        (scan_csv f none infer thr none).freq_table,
       (scan_csv f none infer thr none).warns) := by
  unfold process_csv_job
  rw [hfmt]
  rfl

/-- Claim C7, counterexample: a folder scan over one empty (zero-byte)
CSV file creates the Dataset with zero rows and appends no Variables,
but emits no warning, while the claim asserts that a warning is emitted
for an empty file as well. -/
theorem empty_csv_no_warning_counterexample :
    (add_folder {} "root" none [] [⟨["empty.csv"], ⟨0, fun _ => none⟩⟩]
        true).2 = [] ∧
    ((add_folder {} "root" none [] [⟨["empty.csv"], ⟨0, fun _ => none⟩⟩]
        true).1.datasets.map (fun d => (d.id, d.nb_row))) =
      [("root---empty_csv", some 0)] ∧
    (add_folder {} "root" none [] [⟨["empty.csv"], ⟨0, fun _ => none⟩⟩]
        true).1.vars = [] := by
  exact ⟨rfl, rfl, rfl⟩

/-- Claim C7 as amended: in a folder scan containing one CSV file that
cannot be parsed under any attempted encoding and one valid CSV file,
both Datasets are created; the failed one has row count zero and
contributes no Variables, a warning (rather than an exception) is
emitted for it — while a zero-byte file is handled silently with the
same empty result — and the valid file's Variables are fully populated
(final ids, dataset reference and statistics). -/
theorem add_folder_partial_failure :
    ∀ (bad good : CsvFile) (df : DataFrame),
      bad.size ≠ 0 → (∀ e, bad.parse e = none) →
      good.size ≠ 0 → good.parse none = some df →
      ((add_folder {} "root" none []
          [⟨["bad.csv"], bad⟩, ⟨["good.csv"], good⟩] true).1.datasets.map
        (fun d => (d.id, d.nb_row)) =
        [("root---bad_csv", some 0), ("root---good_csv", some df.height)]) ∧
      (add_folder {} "root" none []
          [⟨["bad.csv"], bad⟩, ⟨["good.csv"], good⟩] true).2 =
        ["Could not parse CSV file"] ∧
      List.Forall₂
        (fun col v =>
          v.id = make_id ["root---good_csv", sanitize_id col.name] ∧
          v.dataset_id = some "root---good_csv" ∧
          v.nb_distinct = some (nUnique col.cells) ∧
          v.nb_missing = some (nullCount col.cells))
        df.cols
        (add_folder {} "root" none []
          [⟨["bad.csv"], bad⟩, ⟨["good.csv"], good⟩] true).1.vars := by
  intro bad good df hbs hbp hgs hgp
  have hscanBad : scan_csv bad none true (some 100) none =
      ⟨[], 0, none, ["Could not parse CSV file"]⟩ :=
    scan_csv_unparseable bad none true (some 100) hbs hbp
  have hscanGood : scan_csv good none true (some 100) none =
      ⟨(build_variables df none true (some 100)).1, df.height,
       (build_variables df none true (some 100)).2, []⟩ :=
    scan_csv_parsed good none true (some 100) df hgs hgp
  have hsortkey : strLe (joinSlash (["bad.csv"])) (joinSlash (["good.csv"])) := by
    decide
  have hadd : add_folder {} "root" none []
      [⟨["bad.csv"], bad⟩, ⟨["good.csv"], good⟩] true =
      (finalize_variables
        { folders := [{ id := "root", name := "root",
                        ftype := some "filesystem",
                        data_path := some "root" }],
          datasets := [{ id := "root---bad_csv", name := "bad",
                         folder_id := some "root",
                         delivery_format := some "csv", nb_row := some 0 },
                       { id := "root---good_csv", name := "good",
                         folder_id := some "root",
                         delivery_format := some "csv",
                         nb_row := some df.height }] }
        (build_variables df none true (some 100)).1
        { id := "root---good_csv", name := "good", folder_id := some "root",
          delivery_format := some "csv", nb_row := some df.height }
        (build_variables df none true (some 100)).2,
       ["Could not parse CSV file"]) := by
    unfold add_folder
    dsimp only
    rw [show (List.insertionSort
        (fun a b => strLe (joinSlash a.parts) (joinSlash b.parts))
        [⟨["bad.csv"], bad⟩, ⟨["good.csv"], good⟩] : List CsvJob) =
        [⟨["bad.csv"], bad⟩, ⟨["good.csv"], good⟩] from by
      simp only [List.insertionSort, List.orderedInsert]
      rw [if_pos hsortkey]]
    simp only [List.foldl_cons, List.foldl_nil]
    unfold addFolderStep
    dsimp only
    rw [process_csv_job_csv _ _ _ _ _ _ _ (by decide)]
    rw [process_csv_job_csv _ _ _ _ _ _ _ (by decide)]
    rw [scan_csv_unparseable bad none true _ hbs hbp]
    rw [scan_csv_parsed good none true _ df hgs hgp]
    dsimp only
    rw [finalize_variables_nil]
    rfl
  rw [hadd]
  refine ⟨?_, rfl, ?_⟩
  · rw [finalize_variables_datasets]
    rfl
  · rw [finalize_variables_vars]
    obtain ⟨suf, hsuf, hall⟩ := assignFold_snd _ _
      (finalizeVarIds "root---good_csv" (build_variables df none true
        (some 100)).1).1 (_, [])
    unfold assign_modalities
    rw [hsuf]
    simp only [List.nil_append]
    have hfst : (finalizeVarIds "root---good_csv"
        (build_variables df none true (some 100)).1).1 =
        df.cols.map (fun col =>
          { id := make_id ["root---good_csv", sanitize_id col.name],
            name := some col.name, dataset_id := some "root---good_csv",
            vtype := some col.dtype,
            nb_distinct := some (nUnique col.cells),
            nb_duplicate := some (df.height - nUnique col.cells),
            nb_missing := some (nullCount col.cells) }) := by
      unfold finalizeVarIds
      rw [finalizeVarIds_fst_general]
      simp only [List.nil_append, build_variables, List.map_map]
      apply List.map_congr_left
      intro col _
      simp [Function.comp, finalVarId, pyOr_self]
    rw [hfst, List.forall₂_map_left_iff] at hall
    exact hall.imp (fun col w h =>
      ⟨h.1, h.2.2.1, h.2.2.2.2.1, h.2.2.2.2.2.2⟩)

/-- Companion of `add_folder_partial_failure` at concrete inputs: a
file failing every encoding next to a one-column table. -/
theorem add_folder_partial_failure_witness :
    ((add_folder {} "root" none []
        [⟨["bad.csv"], ⟨7, fun _ => none⟩⟩,
         ⟨["good.csv"], ⟨9, fun _ => some
           { height := 2,
             cols := [{ name := "color", dtype := "string",
                        cells := [some "red", some "blue"] }] }⟩⟩]
        true).1.datasets.map (fun d => (d.id, d.nb_row)) =
      [("root---bad_csv", some 0), ("root---good_csv", some 2)]) ∧
    (add_folder {} "root" none []
        [⟨["bad.csv"], ⟨7, fun _ => none⟩⟩,
         ⟨["good.csv"], ⟨9, fun _ => some
           { height := 2,
             cols := [{ name := "color", dtype := "string",
                        cells := [some "red", some "blue"] }] }⟩⟩]
        true).2 = ["Could not parse CSV file"] := by
  have h := add_folder_partial_failure ⟨7, fun _ => none⟩
    ⟨9, fun _ => some
      { height := 2,
        cols := [{ name := "color", dtype := "string",
                   cells := [some "red", some "blue"] }] }⟩
    { height := 2,
      cols := [{ name := "color", dtype := "string",
                 cells := [some "red", some "blue"] }] }
    (by decide) (fun e => rfl) (by decide) rfl
  exact ⟨h.1, h.2.1⟩

/- ============================================================
   Folder creation order (claim C5)
   ============================================================ -/

theorem get?_append_of_some {α : Type} {l e : List α} {j : Nat} {g : α}
    (h : l.get? j = some g) : (l ++ e).get? j = some g := by
  have hj : j < l.length := by
    by_contra hge
    rw [List.get?_eq_none.mpr (le_of_not_lt hge)] at h
    cases h
  rw [List.get?_append hj]
  exact h

theorem parentsPrecede_of_short (b : Nat) (fs : List Folder)
    (h : fs.length ≤ b) : ParentsPrecede b fs := by
  intro i f p hb hget _
  rw [List.get?_eq_none.mpr (le_trans h hb)] at hget
  cases hget

theorem parentsPrecede_append_one (b : Nat) (fs : List Folder) (g : Folder)
    (hps : ParentsPrecede b fs)
    (hg : ∀ p, g.parent_id = some p →
      ∃ j h, fs.get? j = some h ∧ h.id = p) :
    ParentsPrecede b (fs ++ [g]) := by
  intro i f p hb hget hp
  by_cases hi : i < fs.length
  · rw [List.get?_append hi] at hget
    obtain ⟨j, g', hj, hget', hid⟩ := hps i f p hb hget hp
    exact ⟨j, g', hj, get?_append_of_some hget', hid⟩
  · by_cases hieq : i = fs.length
    · subst hieq
      rw [List.get?_concat_length] at hget
      injection hget with hget
      subst hget
      obtain ⟨j, h, hget', hid⟩ := hg p hp
      have hj : j < fs.length := by
        by_contra hge
        rw [List.get?_eq_none.mpr (le_of_not_lt hge)] at hget'
        cases hget'
      exact ⟨j, h, hj, get?_append_of_some hget', hid⟩
    · exfalso
      have : (fs ++ [g]).length ≤ i := by
        simp only [List.length_append, List.length_singleton]
        omega
      rw [List.get?_eq_none.mpr this] at hget
      cases hget

theorem parentsPrecede_append_parent_none (b : Nat) :
    ∀ (extra : List Folder) (fs : List Folder),
      ParentsPrecede b fs → (∀ g ∈ extra, g.parent_id = none) →
      ParentsPrecede b (fs ++ extra) := by
  intro extra
  induction extra with
  | nil => intro fs h _; simpa using h
  | cons g extra ih =>
    intro fs h hn
    rw [show fs ++ g :: extra = (fs ++ [g]) ++ extra by simp]
    apply ih
    · apply parentsPrecede_append_one b fs g h
      intro p hp
      rw [hn g (List.mem_cons_self g extra)] at hp
      cases hp
    · intro g' hg'
      exact hn g' (List.mem_cons_of_mem g hg')

theorem subfolderFold_invariant (pfx : String) (b : Nat) :
    ∀ (sds : List (List String)) (base : List Folder)
      (st : List Folder × List (List String × String)),
      ParentsPrecede b (base ++ st.1) →
      (∃ j g, (base ++ st.1).get? j = some g ∧ g.id = pfx) →
      (∀ kv ∈ st.2, ∃ j g, (base ++ st.1).get? j = some g ∧ g.id = kv.2) →
      ParentsPrecede b (base ++ (sds.foldl (subfolderStep pfx) st).1) := by
  intro sds
  induction sds with
  | nil => intro base st h _ _; exact h
  | cons sd sds ih =>
    intro base st hps hpfx hmap
    rw [List.foldl_cons]
    have hshape : base ++ (subfolderStep pfx st sd).1 =
        (base ++ st.1) ++ [(subfolderStep pfx st sd).1.getLast?.getD
          { id := "", name := "" }] := by
      unfold subfolderStep
      simp [List.append_assoc]
    apply ih base (subfolderStep pfx st sd)
    · -- the new folder's parent resolves in base ++ st.1
      have hnew : base ++ (subfolderStep pfx st sd).1 =
          (base ++ st.1) ++
            [{ id := make_id (pfx :: sd.map sanitize_id),
               name := sd.getLastD "",
               parent_id := some (if sd.dropLast = [] then pfx
                 else (((st.2.find? (fun p => p.1 = sd.dropLast)).map
                   Prod.snd).getD pfx)),
               ftype := some "filesystem" }] := by
        unfold subfolderStep
        simp [List.append_assoc]
      rw [hnew]
      apply parentsPrecede_append_one b (base ++ st.1) _ hps
      intro p hp
      simp only [] at hp
      injection hp with hp
      subst hp
      by_cases hroot : sd.dropLast = []
      · rw [if_pos hroot]
        exact hpfx
      · rw [if_neg hroot]
        cases hfind : st.2.find? (fun p => p.1 = sd.dropLast) with
        | none => exact hpfx
        | some kv => exact hmap kv (List.mem_of_find?_eq_some hfind)
    · -- pfx still resolvable after the append
      obtain ⟨j, g, hget, hid⟩ := hpfx
      refine ⟨j, g, ?_, hid⟩
      unfold subfolderStep
      dsimp only
      rw [show base ++ (st.1 ++ [_]) = (base ++ st.1) ++ [_] by
        rw [List.append_assoc]]
      exact get?_append_of_some hget
    · -- every map value still resolves after the append
      intro kv hkv
      unfold subfolderStep at hkv ⊢
      dsimp only at hkv ⊢
      rcases List.mem_append.mp hkv with hold | hnewkv
      · obtain ⟨j, g, hget, hid⟩ := hmap kv hold
        refine ⟨j, g, ?_, hid⟩
        rw [show base ++ (st.1 ++ [_]) = (base ++ st.1) ++ [_] by
          rw [List.append_assoc]]
        exact get?_append_of_some hget
      · simp only [List.mem_singleton] at hnewkv
        subst hnewkv
        rw [← List.append_assoc]
        refine ⟨(base ++ st.1).length, _, List.get?_concat_length _ _, ?_⟩
        rfl

theorem process_csv_job_folders (c : Catalog) (pfx : String)
    (sids : List (List String × String)) (job : CsvJob) (infer : Bool)
    (thr : Option Nat) :
    ∃ extra, (process_csv_job c pfx sids job infer thr).1.folders =
      c.folders ++ extra ∧ ∀ g ∈ extra, g.parent_id = none := by
  unfold process_csv_job
  split
  · exact ⟨[], by simp, by simp⟩
  · split
    · exact ⟨[], by simp, by simp⟩
    · dsimp only
      obtain ⟨extra, he, hn⟩ := finalize_variables_folders
        { c with datasets := c.datasets ++ [_] } _ _ _
      exact ⟨extra, he, hn⟩

theorem filesFold_folders (pfx : String) (sids : List (List String × String))
    (infer : Bool) (thr : Option Nat) :
    ∀ (jobs : List CsvJob) (acc : Catalog × List String),
      ∃ extra,
        ((jobs.foldl (addFolderStep pfx sids infer thr) acc).1).folders =
          acc.1.folders ++ extra ∧ ∀ g ∈ extra, g.parent_id = none := by
  intro jobs
  induction jobs with
  | nil => exact fun acc => ⟨[], by simp, by simp⟩
  | cons job jobs ih =>
    intro acc
    obtain ⟨e1, he1, hn1⟩ := process_csv_job_folders acc.1 pfx sids job
      infer thr
    obtain ⟨e2, he2, hn2⟩ := ih (addFolderStep pfx sids infer thr acc job)
    refine ⟨e1 ++ e2, ?_, ?_⟩
    · rw [List.foldl_cons, he2]
      unfold addFolderStep
      dsimp only
      rw [he1, List.append_assoc]
    · intro g hg
      rcases List.mem_append.mp hg with hg | hg
      · exact hn1 g hg
      · exact hn2 g hg

/-- Claim C5: after an add_folder call (whose given root Folder, if
any, has no parent reference, as a freshly constructed Folder does),
every Folder appended to the catalog's folders list that carries a
non-null parent_id refers to the id of a Folder appended strictly
earlier in the list — the root and the sub-folders come out in
parent-before-child order and the sentinel modalities folder has no
parent — so a consumer can resolve parent_id by scanning the list once
in order. -/
theorem add_folder_parents_precede :
    ∀ (c : Catalog) (rootName : String) (folder : Option Folder)
      (subdirs : List (List String)) (files : List CsvJob) (infer : Bool),
      (∀ f, folder = some f → f.parent_id = none) →
      ParentsPrecede c.folders.length
        ((add_folder c rootName folder subdirs files infer).1.folders) := by
  intro c rootName folder subdirs files infer hroot
  unfold add_folder
  dsimp only
  obtain ⟨extra, hex, hnone⟩ := filesFold_folders
    (folder.getD { id := sanitize_id rootName, name := rootName }).id
    (create_subfolders
      (folder.getD { id := sanitize_id rootName, name := rootName }).id
      subdirs).2 infer _
    (List.insertionSort
      (fun a b => strLe (joinSlash a.parts) (joinSlash b.parts)) files) _
  rw [hex]
  dsimp only
  apply parentsPrecede_append_parent_none _ _ _ ?base hnone
  case base =>
    have hparent : (folder.getD
        { id := sanitize_id rootName, name := rootName }).parent_id = none := by
      cases folder with
      | none => rfl
      | some f => exact hroot f rfl
    apply subfolderFold_invariant
    · -- ParentsPrecede over base ++ []
      rw [List.append_nil]
      apply parentsPrecede_append_one _ _ _
        (parentsPrecede_of_short _ _ (le_refl _))
      intro p hp
      dsimp only at hp
      rw [hparent] at hp
      cases hp
    · rw [List.append_nil]
      exact ⟨c.folders.length, _, List.get?_concat_length _ _, rfl⟩
    · intro kv hkv
      cases hkv

/-- Companion of `add_folder_parents_precede` at a concrete input: a
root with a nested sub-directory; parents come out before children. -/
theorem add_folder_parents_precede_witness :
    ((add_folder {} "src" none [["2024"], ["2024", "jan"]] [] true).1.folders.map
      (fun f => (f.id, f.parent_id)) =
      [("src", none), ("src---2024", some "src"),
       ("src---2024---jan", some "src---2024")]) ∧
    ParentsPrecede 0
      ((add_folder {} "src" none [["2024"], ["2024", "jan"]] [] true).1.folders) := by
  refine ⟨by decide, ?_⟩
  exact add_folder_parents_precede {} "src" none [["2024"], ["2024", "jan"]]
    [] true (fun f hf => by cases hf)

end Datannur
